import Mathlib

/-!
Verification of the batch/workflow execution engine of the
`ai-image-automation` browser extension.

The definitions below are a shallow embedding of:
  * `src/services/apiService.ts` — `createBatchQueue`, `getBatchQueueStatus`,
    `clearBatchQueue`, and the `processItem` / `processQueue` pair shared by
    `processBatchChat`, `processBatchImages` and `processBatchVideos`;
  * the `WorkflowExecutor` class (`execute`, `runWorkflow`, `executeStep`,
    `cancel`) and its template-substitution logic.

JavaScript `Map`s are embedded as functions `String → Option α` (the source
only uses `get` / `set` / `delete`, so this is observationally faithful).
Item payloads, generation results and error messages are embedded as `String`
(the engine treats them opaquely; the TS code applies `String(...)` where a
string form is needed).
-/

namespace AIAuto

/-- Item status, from the `BatchTaskItem` interface in `apiService.ts`:
`'pending' | 'processing' | 'completed' | 'failed'`. -/
inductive ItemStatus
  | pending
  | processing
  | completed
  | failed
deriving DecidableEq, Repr

/-- `BatchTaskItem` from `apiService.ts`.  `result` and `error` are optional
fields there (`result?: any`, `error?: string`); `retryCount?: number` is
created as `0` by `createBatchQueue`. -/
structure BatchTaskItem where
  id : String
  data : String
  status : ItemStatus
  result : Option String := none
  error : Option String := none
  retryCount : Nat := 0
deriving DecidableEq, Repr

/-- `BatchConfig` from `apiService.ts`: `maxConcurrent`, `retryCount`,
`retryDelay` (all numbers; the delay value never influences which state is
reached, only when, so it is carried but unused). -/
structure BatchConfig where
  maxConcurrent : Nat
  retryCount : Nat
  retryDelay : Nat
deriving DecidableEq, Repr

/-- Outcome of one `GenerationCapability` attempt for one item: the awaited
stream either yields a full response or throws with a message. -/
inductive AttemptOutcome
  | ok (v : String)
  | err (msg : String)
deriving DecidableEq, Repr

/-- The success branch of `processItem`'s `try` block:
`item.result = fullResponse; item.status = 'completed'`.
Note that `item.error` is left untouched. -/
def applySuccess (item : BatchTaskItem) (v : String) : BatchTaskItem :=
  { item with result := some v, status := ItemStatus.completed }

/-- The `catch` branch of `processItem`:
`item.error = msg; item.retryCount = (item.retryCount || 0) + 1;`
then `if (item.retryCount < config.retryCount)` the item is returned to
`'pending'` (and a retry timer is scheduled), else `item.status = 'failed'`. -/
def applyFailure (cfg : BatchConfig) (item : BatchTaskItem) (msg : String) :
    BatchTaskItem :=
  if item.retryCount + 1 < cfg.retryCount then
    { item with error := some msg, retryCount := item.retryCount + 1,
                status := ItemStatus.pending }
  else
    { item with error := some msg, retryCount := item.retryCount + 1,
                status := ItemStatus.failed }

/-- One settled attempt of `processItem` on an item. -/
def applyOutcome (cfg : BatchConfig) (item : BatchTaskItem) :
    AttemptOutcome → BatchTaskItem
  | AttemptOutcome.ok v => applySuccess item v
  | AttemptOutcome.err m => applyFailure cfg item m

/-- The retry chain of `processItem` on a single item: each failure that
leaves `retryCount < config.retryCount` schedules `processItem` again via
`setTimeout`, so the attempts on one item form a sequence.  `outcomes` is the
oracle of attempt outcomes; the result pairs the final item state with the
number of attempts actually consumed. -/
def processItemChain (cfg : BatchConfig) (item : BatchTaskItem) :
    List AttemptOutcome → BatchTaskItem × Nat
  | [] => (item, 0)
  | AttemptOutcome.ok v :: _ => (applySuccess item v, 1)
  | AttemptOutcome.err m :: rest =>
    if (applyFailure cfg item m).status = ItemStatus.pending then
      ((processItemChain cfg (applyFailure cfg item m) rest).1,
       (processItemChain cfg (applyFailure cfg item m) rest).2 + 1)
    else
      (applyFailure cfg item m, 1)

/-! ### Queue bookkeeping (`APIService`)

`batchQueues : Map<string, BatchTaskItem[]>` and
`processingQueues : Map<string, Set<string>>` are embedded as functions
`String → Option _`; the source only calls `get`, `set` and `delete` on them. -/

/-- `Map.prototype.set`. -/
def mapSet (m : String → Option α) (k : String) (v : α) : String → Option α :=
  fun q => if q = k then some v else m q

/-- `Map.prototype.delete`. -/
def mapDelete (m : String → Option α) (k : String) : String → Option α :=
  fun q => if q = k then none else m q

/-- The two module-level maps owned by `APIService`. -/
structure BatchService where
  batchQueues : String → Option (List BatchTaskItem)
  processingQueues : String → Option (Finset String)

/-- A service in which no queue has ever been created. -/
def emptyService : BatchService :=
  { batchQueues := fun _ => none, processingQueues := fun _ => none }

/-- The item list built by `createBatchQueue`:
`items.map((data, index) => ({ id: qid_index_Date.now(), data,
status: 'pending', retryCount: 0 }))`.  `now` stands for `Date.now()`. -/
def mkBatchItems (queueId : String) (items : List String) (now : Nat) :
    List BatchTaskItem :=
  ((List.range items.length).zip items).map fun p =>
    { id := queueId ++ "_" ++ toString p.1 ++ "_" ++ toString now
      data := p.2
      status := ItemStatus.pending
      retryCount := 0 }

/-- `createBatchQueue`: builds the item list, stores it under `queueId`,
stores a fresh empty in-flight set, and returns the items.  There is no
emptiness or duplicate-id check anywhere in the function. -/
def createBatchQueue (svc : BatchService) (queueId : String)
    (items : List String) (now : Nat) : BatchService × List BatchTaskItem :=
  let batchItems := mkBatchItems queueId items now
  ({ batchQueues := mapSet svc.batchQueues queueId batchItems
     processingQueues := mapSet svc.processingQueues queueId ∅ },
   batchItems)

/-- `BatchResult<T>` from `apiService.ts` (specialised to string payloads). -/
structure BatchResultAgg where
  totalItems : Nat
  completedItems : Nat
  failedItems : Nat
  results : List String
  errors : List String
deriving DecidableEq, Repr

/-- JavaScript truthiness of an optional string
(`undefined` and `''` are falsy). -/
def isTruthy : Option String → Bool
  | none => false
  | some s => !s.isEmpty

/-- The aggregate built by `getBatchQueueStatus` for an existing queue. -/
def queueStatus (queue : List BatchTaskItem) : BatchResultAgg :=
  { totalItems := queue.length
    completedItems :=
      (queue.filter fun it => it.status == ItemStatus.completed).length
    failedItems :=
      (queue.filter fun it => it.status == ItemStatus.failed).length
    results :=
      (queue.filter fun it => isTruthy it.result).map fun it => it.result.getD ""
    errors :=
      (queue.filter fun it => isTruthy it.error).map fun it => it.error.getD "" }

/-- `getBatchQueueStatus`: `null` when the queue id is unknown, otherwise the
freshly recomputed aggregate. -/
def getBatchQueueStatus (svc : BatchService) (queueId : String) :
    Option BatchResultAgg :=
  (svc.batchQueues queueId).map queueStatus

/-- `clearBatchQueue`: deletes both map entries. -/
def clearBatchQueue (svc : BatchService) (queueId : String) : BatchService :=
  { batchQueues := mapDelete svc.batchQueues queueId
    processingQueues := mapDelete svc.processingQueues queueId }

/-- The single round of `processQueue` that the promise returned by
`processBatchChat` (and `processBatchImages` / `processBatchVideos`) actually
awaits: it dispatches the first `maxConcurrent - processingSet.size` pending
items (the set is empty on the first call), awaits exactly one settled attempt
for each via `Promise.all`, and then only *schedules* any follow-up round with
`setTimeout(processQueue, 100)` without awaiting it.  `oracle` gives the
outcome of each dispatched item's attempt; retry timers fire after this round
settles. -/
def processQueueRound (cfg : BatchConfig) (oracle : String → AttemptOutcome)
    (queue : List BatchTaskItem) : List BatchTaskItem :=
  let pendingIds :=
    ((queue.filter fun it => it.status == ItemStatus.pending).map
      BatchTaskItem.id).take cfg.maxConcurrent
  queue.map fun it =>
    if it.id ∈ pendingIds then applyOutcome cfg it (oracle it.id) else it

/-! ### Basic facts about single attempts -/

@[simp] lemma applySuccess_status (item : BatchTaskItem) (v : String) :
    (applySuccess item v).status = ItemStatus.completed := rfl

@[simp] lemma applySuccess_result (item : BatchTaskItem) (v : String) :
    (applySuccess item v).result = some v := rfl

@[simp] lemma applySuccess_error (item : BatchTaskItem) (v : String) :
    (applySuccess item v).error = item.error := rfl

@[simp] lemma applyFailure_error (cfg : BatchConfig) (item : BatchTaskItem)
    (m : String) : (applyFailure cfg item m).error = some m := by
  unfold applyFailure
  split <;> rfl

@[simp] lemma applyFailure_result (cfg : BatchConfig) (item : BatchTaskItem)
    (m : String) : (applyFailure cfg item m).result = item.result := by
  unfold applyFailure
  split <;> rfl

@[simp] lemma applyFailure_retryCount (cfg : BatchConfig)
    (item : BatchTaskItem) (m : String) :
    (applyFailure cfg item m).retryCount = item.retryCount + 1 := by
  unfold applyFailure
  split <;> rfl

lemma applyFailure_status_pending_iff (cfg : BatchConfig)
    (item : BatchTaskItem) (m : String) :
    (applyFailure cfg item m).status = ItemStatus.pending ↔
      item.retryCount + 1 < cfg.retryCount := by
  unfold applyFailure
  split <;> simp_all

lemma applyFailure_status_failed (cfg : BatchConfig) (item : BatchTaskItem)
    (m : String) (h : ¬ item.retryCount + 1 < cfg.retryCount) :
    (applyFailure cfg item m).status = ItemStatus.failed := by
  unfold applyFailure
  split <;> simp_all

lemma applyOutcome_status_ne_processing (cfg : BatchConfig)
    (it : BatchTaskItem) (o : AttemptOutcome) :
    (applyOutcome cfg it o).status ≠ ItemStatus.processing := by
  cases o with
  | ok v => intro h; cases h
  | err m =>
    show (applyFailure cfg it m).status ≠ ItemStatus.processing
    unfold applyFailure
    split <;> (intro h; cases h)

/-- Retry arithmetic of the chain, generalised over the starting counter:
a chain that ends `failed` stops at the first failure whose incremented
counter reaches `cfg.retryCount`, so the stored counter is
`max cfg.retryCount (start + 1)` and the chain consumed exactly the
difference in counter values. -/
lemma processItemChain_failed_count (cfg : BatchConfig) :
    ∀ (os : List AttemptOutcome) (item : BatchTaskItem),
      item.status = ItemStatus.pending →
      (processItemChain cfg item os).1.status = ItemStatus.failed →
      (processItemChain cfg item os).1.retryCount =
          max cfg.retryCount (item.retryCount + 1) ∧
      (processItemChain cfg item os).2 =
          max cfg.retryCount (item.retryCount + 1) - item.retryCount := by
  intro os
  induction os with
  | nil =>
    intro item hpend hfail
    simp only [processItemChain] at hfail
    rw [hpend] at hfail
    cases hfail
  | cons o rest ih =>
    intro item hpend hfail
    cases o with
    | ok v =>
      simp only [processItemChain, applySuccess_status] at hfail
      cases hfail
    | err m =>
      by_cases hp : (applyFailure cfg item m).status = ItemStatus.pending
      · have hlt : item.retryCount + 1 < cfg.retryCount :=
          (applyFailure_status_pending_iff cfg item m).mp hp
        simp only [processItemChain, if_pos hp] at hfail ⊢
        obtain ⟨h1, h2⟩ := ih (applyFailure cfg item m) hp hfail
        rw [applyFailure_retryCount] at h1 h2
        constructor
        · rw [h1]
          omega
        · rw [h2]
          omega
      · have hge : ¬ item.retryCount + 1 < cfg.retryCount := by
          intro hlt
          exact hp ((applyFailure_status_pending_iff cfg item m).mpr hlt)
        simp only [processItemChain, if_neg hp]
        refine ⟨?_, ?_⟩
        · rw [applyFailure_retryCount]
          omega
        · omega

/-- C1 (counterexample): with `retryCount = 1` configured, a fresh item whose
attempts all fail is marked `failed` after a single attempt with stored
`retryCount = 1`, not after `1 + 1 = 2` attempts with stored counter `2` as
the claim states: the code retries only while the incremented counter is
*strictly* below the configured value. -/
theorem batch_retry_attempts_cx :
    (processItemChain ⟨1, 1, 0⟩
        { id := "q_0_7", data := "p", status := ItemStatus.pending }
        [AttemptOutcome.err "boom", AttemptOutcome.err "boom"]).1.status =
      ItemStatus.failed ∧
    (processItemChain ⟨1, 1, 0⟩
        { id := "q_0_7", data := "p", status := ItemStatus.pending }
        [AttemptOutcome.err "boom", AttemptOutcome.err "boom"]).1.retryCount = 1 ∧
    (processItemChain ⟨1, 1, 0⟩
        { id := "q_0_7", data := "p", status := ItemStatus.pending }
        [AttemptOutcome.err "boom", AttemptOutcome.err "boom"]).2 = 1 ∧
    ¬ (processItemChain ⟨1, 1, 0⟩
        { id := "q_0_7", data := "p", status := ItemStatus.pending }
        [AttemptOutcome.err "boom", AttemptOutcome.err "boom"]).1.retryCount
        = 1 + 1 := by
  decide

/-- C1 (amended): for a fresh item that eventually reaches `failed` under a
configuration with `retryCount = R`, the engine made `max R 1` total attempts
(not `R + 1`) and the stored `retryCount` field equals `max R 1`; an attempt
whose failure leaves the incremented counter *strictly below* `R` returns the
item to `pending` instead of failing it. -/
theorem batch_retry_attempts (cfg : BatchConfig) (item : BatchTaskItem)
    (os : List AttemptOutcome)
    (hfresh : item.retryCount = 0) (hpend : item.status = ItemStatus.pending)
    (hfail : (processItemChain cfg item os).1.status = ItemStatus.failed) :
    (processItemChain cfg item os).1.retryCount = max cfg.retryCount 1 ∧
    (processItemChain cfg item os).2 = max cfg.retryCount 1 ∧
    ∀ it : BatchTaskItem, ∀ m : String, it.retryCount + 1 < cfg.retryCount →
      (applyFailure cfg it m).status = ItemStatus.pending := by
  obtain ⟨h1, h2⟩ := processItemChain_failed_count cfg os item hpend hfail
  rw [hfresh] at h1 h2
  refine ⟨by omega, by omega, ?_⟩
  intro it m hlt
  exact (applyFailure_status_pending_iff cfg it m).mpr hlt

/-- C1 witness: configured `retryCount = 2`, two failing attempts exhaust the
retries with stored counter `max 2 1 = 2`. -/
theorem batch_retry_attempts_witness :
    (processItemChain ⟨1, 2, 0⟩
        { id := "q_0_7", data := "p", status := ItemStatus.pending }
        [AttemptOutcome.err "e", AttemptOutcome.err "e"]).1.retryCount =
      max 2 1 ∧
    (processItemChain ⟨1, 2, 0⟩
        { id := "q_0_7", data := "p", status := ItemStatus.pending }
        [AttemptOutcome.err "e", AttemptOutcome.err "e"]).2 = max 2 1 ∧
    ∀ it : BatchTaskItem, ∀ m : String,
      it.retryCount + 1 < (2 : Nat) →
      (applyFailure ⟨1, 2, 0⟩ it m).status = ItemStatus.pending :=
  batch_retry_attempts ⟨1, 2, 0⟩
    { id := "q_0_7", data := "p", status := ItemStatus.pending }
    [AttemptOutcome.err "e", AttemptOutcome.err "e"]
    rfl rfl (by decide)

/-- Result/error slot bookkeeping of the retry chain, generalised over the
starting slots: a chain ending `failed` leaves `result` untouched and `error`
set; a chain ending `completed` sets `result`, and `error` is set exactly when
the chain started with it set or made at least two attempts (the last failure's
message is never cleared by a later success). -/
lemma processItemChain_slots (cfg : BatchConfig) :
    ∀ (os : List AttemptOutcome) (item : BatchTaskItem),
      item.status = ItemStatus.pending →
      (((processItemChain cfg item os).1.status = ItemStatus.failed →
          (processItemChain cfg item os).1.error.isSome = true ∧
          (processItemChain cfg item os).1.result = item.result) ∧
        ((processItemChain cfg item os).1.status = ItemStatus.completed →
          (processItemChain cfg item os).1.result.isSome = true ∧
          ((processItemChain cfg item os).1.error.isSome = true ↔
            (item.error.isSome = true ∨ 2 ≤ (processItemChain cfg item os).2))) ∧
        ((processItemChain cfg item os).1.status = ItemStatus.completed →
          1 ≤ (processItemChain cfg item os).2)) := by
  intro os
  induction os with
  | nil =>
    intro item hpend
    refine ⟨?_, ?_, ?_⟩ <;> intro h <;>
      · simp only [processItemChain] at h
        rw [hpend] at h
        cases h
  | cons o rest ih =>
    intro item hpend
    cases o with
    | ok v =>
      refine ⟨?_, ?_, ?_⟩
      · intro h
        simp only [processItemChain, applySuccess_status] at h
        cases h
      · intro _
        simp only [processItemChain, applySuccess_result, applySuccess_error]
        refine ⟨rfl, ?_⟩
        constructor
        · intro he
          exact Or.inl he
        · intro he
          rcases he with he | he
          · exact he
          · omega
      · intro _
        simp only [processItemChain]
        omega
    | err m =>
      by_cases hp : (applyFailure cfg item m).status = ItemStatus.pending
      · obtain ⟨ihf, ihc, ihn⟩ := ih (applyFailure cfg item m) hp
        refine ⟨?_, ?_, ?_⟩
        · intro h
          simp only [processItemChain, if_pos hp] at h ⊢
          obtain ⟨he, hr⟩ := ihf h
          rw [applyFailure_result] at hr
          exact ⟨he, hr⟩
        · intro h
          simp only [processItemChain, if_pos hp] at h ⊢
          obtain ⟨hr, he⟩ := ihc h
          have hn := ihn h
          refine ⟨hr, ?_⟩
          rw [he, applyFailure_error]
          constructor
          · intro _
            right
            omega
          · intro _
            left
            rfl
        · intro h
          simp only [processItemChain, if_pos hp] at h ⊢
          omega
      · have hfid : (applyFailure cfg item m).status = ItemStatus.failed := by
          refine applyFailure_status_failed cfg item m ?_
          intro hlt
          exact hp ((applyFailure_status_pending_iff cfg item m).mpr hlt)
        refine ⟨?_, ?_, ?_⟩
        · intro _
          simp only [processItemChain, if_neg hp]
          exact ⟨by rw [applyFailure_error]; rfl, by rw [applyFailure_result]⟩
        · intro h
          simp only [processItemChain, if_neg hp] at h
          rw [hfid] at h
          cases h
        · intro h
          simp only [processItemChain, if_neg hp] at h
          rw [hfid] at h
          cases h

/-- C2 (counterexample): with `retryCount = 2` configured, an item that fails
once and then succeeds on the retry ends with status `completed` while BOTH
slots are populated: the success branch of `processItem` sets `result` but
never clears the `error` written by the earlier failed attempt. -/
theorem item_slots_cx :
    (processItemChain ⟨1, 2, 0⟩
        { id := "q_0_7", data := "p", status := ItemStatus.pending }
        [AttemptOutcome.err "boom", AttemptOutcome.ok "v"]).1.status =
      ItemStatus.completed ∧
    (processItemChain ⟨1, 2, 0⟩
        { id := "q_0_7", data := "p", status := ItemStatus.pending }
        [AttemptOutcome.err "boom", AttemptOutcome.ok "v"]).1.result =
      some "v" ∧
    (processItemChain ⟨1, 2, 0⟩
        { id := "q_0_7", data := "p", status := ItemStatus.pending }
        [AttemptOutcome.err "boom", AttemptOutcome.ok "v"]).1.error =
      some "boom" := by
  decide

/-- C2 (amended): for a fresh work item, once the retry chain ends, a `failed`
item has `error` populated and `result` empty, and a `completed` item has
`result` populated — but `error` is cleared only if the very first attempt
succeeded: an item that failed on an earlier attempt and succeeded on a retry
ends with `result` set AND the stale `error` still set (both slots populated,
contrary to the exactly-one invariant). -/
theorem item_result_error_slots (cfg : BatchConfig) (item : BatchTaskItem)
    (os : List AttemptOutcome)
    (hpend : item.status = ItemStatus.pending)
    (hres : item.result = none) (herr : item.error = none) :
    ((processItemChain cfg item os).1.status = ItemStatus.failed →
      (processItemChain cfg item os).1.error.isSome = true ∧
      (processItemChain cfg item os).1.result = none) ∧
    ((processItemChain cfg item os).1.status = ItemStatus.completed →
      (processItemChain cfg item os).1.result.isSome = true ∧
      ((processItemChain cfg item os).1.error.isSome = true ↔
        2 ≤ (processItemChain cfg item os).2)) := by
  obtain ⟨hf, hc, _⟩ := processItemChain_slots cfg os item hpend
  constructor
  · intro h
    obtain ⟨he, hr⟩ := hf h
    rw [hres] at hr
    exact ⟨he, hr⟩
  · intro h
    obtain ⟨hr, he⟩ := hc h
    refine ⟨hr, ?_⟩
    rw [he, herr]
    simp

/-- C2 witness: a fail-then-succeed chain under configured `retryCount = 2`
instantiates the amended statement. -/
theorem item_result_error_slots_witness :
    ((processItemChain ⟨1, 2, 0⟩
        { id := "q_0_7", data := "p", status := ItemStatus.pending }
        [AttemptOutcome.err "boom", AttemptOutcome.ok "v"]).1.status =
        ItemStatus.failed →
      (processItemChain ⟨1, 2, 0⟩
        { id := "q_0_7", data := "p", status := ItemStatus.pending }
        [AttemptOutcome.err "boom", AttemptOutcome.ok "v"]).1.error.isSome =
        true ∧
      (processItemChain ⟨1, 2, 0⟩
        { id := "q_0_7", data := "p", status := ItemStatus.pending }
        [AttemptOutcome.err "boom", AttemptOutcome.ok "v"]).1.result = none) ∧
    ((processItemChain ⟨1, 2, 0⟩
        { id := "q_0_7", data := "p", status := ItemStatus.pending }
        [AttemptOutcome.err "boom", AttemptOutcome.ok "v"]).1.status =
        ItemStatus.completed →
      (processItemChain ⟨1, 2, 0⟩
        { id := "q_0_7", data := "p", status := ItemStatus.pending }
        [AttemptOutcome.err "boom", AttemptOutcome.ok "v"]).1.result.isSome =
        true ∧
      ((processItemChain ⟨1, 2, 0⟩
        { id := "q_0_7", data := "p", status := ItemStatus.pending }
        [AttemptOutcome.err "boom", AttemptOutcome.ok "v"]).1.error.isSome =
        true ↔
        2 ≤ (processItemChain ⟨1, 2, 0⟩
          { id := "q_0_7", data := "p", status := ItemStatus.pending }
          [AttemptOutcome.err "boom", AttemptOutcome.ok "v"]).2)) :=
  item_result_error_slots ⟨1, 2, 0⟩
    { id := "q_0_7", data := "p", status := ItemStatus.pending }
    [AttemptOutcome.err "boom", AttemptOutcome.ok "v"]
    rfl rfl rfl

/-- C8 (counterexample): `createBatchQueue` accepts an empty item list without
any error: it registers queue state (an empty item array and a fresh in-flight
set) under the id, and `getBatchQueueStatus` then reports a normal zero-item
aggregate instead of any failure.  No `maxConcurrent` validation exists either
(`createBatchQueue` never sees the config; the drain functions never check it). -/
theorem submit_validation_cx :
    (createBatchQueue emptyService "q" [] 0).1.batchQueues "q" = some [] ∧
    (createBatchQueue emptyService "q" [] 0).1.processingQueues "q" = some ∅ ∧
    (createBatchQueue emptyService "q" [] 0).2 = [] ∧
    getBatchQueueStatus (createBatchQueue emptyService "q" [] 0).1 "q" =
      some ⟨0, 0, 0, [], []⟩ := by
  refine ⟨?_, ?_, ?_, ?_⟩ <;> rfl

/-- C8 (amended): submission performs no validation at all.  An empty item
list is accepted: it creates (and registers) an empty queue whose status
aggregate is immediately `totalItems = 0`; a configuration with
`maxConcurrent < 1` is also accepted and simply causes the drain round to
dispatch no items (every item stays `pending`); no configuration error is ever
signalled. -/
theorem submit_no_validation (svc : BatchService) (queueId : String)
    (now : Nat) (cfg : BatchConfig) (oracle : String → AttemptOutcome)
    (queue : List BatchTaskItem) (hmc : cfg.maxConcurrent = 0) :
    (createBatchQueue svc queueId [] now).1.batchQueues queueId = some [] ∧
    getBatchQueueStatus (createBatchQueue svc queueId [] now).1 queueId =
      some ⟨0, 0, 0, [], []⟩ ∧
    processQueueRound cfg oracle queue = queue := by
  refine ⟨?_, ?_, ?_⟩
  · simp [createBatchQueue, mapSet, mkBatchItems]
  · simp [createBatchQueue, mapSet, mkBatchItems, getBatchQueueStatus,
      queueStatus]
  · simp [processQueueRound, hmc]

/-- C8 witness: concrete empty submission and a `maxConcurrent = 0` round. -/
theorem submit_no_validation_witness :
    (createBatchQueue emptyService "q" [] 5).1.batchQueues "q" = some [] ∧
    getBatchQueueStatus (createBatchQueue emptyService "q" [] 5).1 "q" =
      some ⟨0, 0, 0, [], []⟩ ∧
    processQueueRound ⟨0, 1, 0⟩ (fun _ => AttemptOutcome.ok "v")
      (mkBatchItems "q" ["a"] 5) = mkBatchItems "q" ["a"] 5 :=
  submit_no_validation emptyService "q" 5 ⟨0, 1, 0⟩
    (fun _ => AttemptOutcome.ok "v") (mkBatchItems "q" ["a"] 5) rfl

/-- C9 (confirmed): `getBatchQueueStatus` returns `null` for an unknown or
cleared queue id, and for an existing queue returns an aggregate whose
`totalItems` is the queue length and whose `completedItems` / `failedItems`
count exactly the items with the corresponding status. -/
theorem batch_queue_status_spec (svc : BatchService) (queueId : String) :
    (svc.batchQueues queueId = none →
      getBatchQueueStatus svc queueId = none) ∧
    getBatchQueueStatus (clearBatchQueue svc queueId) queueId = none ∧
    ∀ queue : List BatchTaskItem, svc.batchQueues queueId = some queue →
      getBatchQueueStatus svc queueId = some (queueStatus queue) ∧
      (queueStatus queue).totalItems = queue.length ∧
      (queueStatus queue).completedItems =
        queue.countP (fun it => it.status == ItemStatus.completed) ∧
      (queueStatus queue).failedItems =
        queue.countP (fun it => it.status == ItemStatus.failed) := by
  refine ⟨?_, ?_, ?_⟩
  · intro h
    simp [getBatchQueueStatus, h]
  · simp [getBatchQueueStatus, clearBatchQueue, mapDelete]
  · intro queue h
    refine ⟨by simp [getBatchQueueStatus, h], rfl, ?_, ?_⟩ <;>
      simp [queueStatus, List.countP_eq_length_filter]

/-- C9 witness: an unknown id on the empty service, a cleared queue, and a
freshly created two-item queue. -/
theorem batch_queue_status_spec_witness :
    getBatchQueueStatus emptyService "nope" = none ∧
    getBatchQueueStatus
      (clearBatchQueue (createBatchQueue emptyService "q" ["a", "b"] 3).1 "q")
      "q" = none ∧
    (getBatchQueueStatus (createBatchQueue emptyService "q" ["a", "b"] 3).1 "q" =
      some (queueStatus (mkBatchItems "q" ["a", "b"] 3)) ∧
     (queueStatus (mkBatchItems "q" ["a", "b"] 3)).totalItems =
       (mkBatchItems "q" ["a", "b"] 3).length ∧
     (queueStatus (mkBatchItems "q" ["a", "b"] 3)).completedItems =
       (mkBatchItems "q" ["a", "b"] 3).countP
         (fun it => it.status == ItemStatus.completed) ∧
     (queueStatus (mkBatchItems "q" ["a", "b"] 3)).failedItems =
       (mkBatchItems "q" ["a", "b"] 3).countP
         (fun it => it.status == ItemStatus.failed)) :=
  ⟨(batch_queue_status_spec emptyService "nope").1 rfl,
   (batch_queue_status_spec
      (clearBatchQueue (createBatchQueue emptyService "q" ["a", "b"] 3).1 "q")
      "q").2.1,
   (batch_queue_status_spec (createBatchQueue emptyService "q" ["a", "b"] 3).1
      "q").2.2 (mkBatchItems "q" ["a", "b"] 3) rfl⟩

/-- C10 (confirmed): calling `createBatchQueue` with an already-registered
`queueId` silently replaces the stored queue and its in-flight set — the map
now yields the fresh items (the prior queue is unreachable), a fresh empty
in-flight set is stored, no duplicate-id error is possible (the function is
total), and every fresh item starts `pending` with `retryCount = 0`. -/
theorem create_batch_queue_replaces (svc : BatchService) (queueId : String)
    (items : List String) (now : Nat) (oldQueue : List BatchTaskItem)
    (_hreg : svc.batchQueues queueId = some oldQueue) :
    (createBatchQueue svc queueId items now).1.batchQueues queueId =
      some (mkBatchItems queueId items now) ∧
    (createBatchQueue svc queueId items now).1.processingQueues queueId =
      some ∅ ∧
    (createBatchQueue svc queueId items now).2 =
      mkBatchItems queueId items now ∧
    ∀ it ∈ mkBatchItems queueId items now,
      it.status = ItemStatus.pending ∧ it.retryCount = 0 := by
  refine ⟨by simp [createBatchQueue, mapSet], by simp [createBatchQueue, mapSet],
    rfl, ?_⟩
  intro it hit
  simp only [mkBatchItems, List.mem_map] at hit
  obtain ⟨p, _, rfl⟩ := hit
  exact ⟨rfl, rfl⟩

/-- C10 witness: re-registering id `"q"` over an existing one-item queue. -/
theorem create_batch_queue_replaces_witness :
    ((createBatchQueue (createBatchQueue emptyService "q" ["a"] 3).1 "q"
        ["x", "y"] 5).1.batchQueues "q" = some (mkBatchItems "q" ["x", "y"] 5) ∧
     (createBatchQueue (createBatchQueue emptyService "q" ["a"] 3).1 "q"
        ["x", "y"] 5).1.processingQueues "q" = some ∅ ∧
     (createBatchQueue (createBatchQueue emptyService "q" ["a"] 3).1 "q"
        ["x", "y"] 5).2 = mkBatchItems "q" ["x", "y"] 5 ∧
     ∀ it ∈ mkBatchItems "q" ["x", "y"] 5,
       it.status = ItemStatus.pending ∧ it.retryCount = 0) :=
  create_batch_queue_replaces (createBatchQueue emptyService "q" ["a"] 3).1
    "q" ["x", "y"] 5 (mkBatchItems "q" ["a"] 3) rfl

/-- C4 (counterexample): `processQueue` only *awaits* its first
`Promise.all` round and schedules any continuation with an un-awaited
`setTimeout`, so the promise returned by `processBatchChat` resolves after the
first round.  With two items and `maxConcurrent = 1`, at resolution the second
item still has status `pending` and the returned aggregate has
`completedItems + failedItems ≠ totalItems`. -/
theorem batch_drain_resolution_cx :
    ((processQueueRound ⟨1, 0, 0⟩ (fun _ => AttemptOutcome.ok "v")
        (mkBatchItems "q" ["a", "b"] 0)).any
      (fun it => it.status == ItemStatus.pending)) = true ∧
    (queueStatus (processQueueRound ⟨1, 0, 0⟩ (fun _ => AttemptOutcome.ok "v")
        (mkBatchItems "q" ["a", "b"] 0))).completedItems +
      (queueStatus (processQueueRound ⟨1, 0, 0⟩ (fun _ => AttemptOutcome.ok "v")
        (mkBatchItems "q" ["a", "b"] 0))).failedItems ≠
      (queueStatus (processQueueRound ⟨1, 0, 0⟩ (fun _ => AttemptOutcome.ok "v")
        (mkBatchItems "q" ["a", "b"] 0))).totalItems := by
  refine ⟨rfl, ?_⟩
  decide

/-- A list of terminal items splits exactly into its completed and failed
parts. -/
lemma terminal_filter_count :
    ∀ l : List BatchTaskItem,
      (∀ it ∈ l, it.status = ItemStatus.completed ∨
        it.status = ItemStatus.failed) →
      (l.filter fun it => it.status == ItemStatus.completed).length +
        (l.filter fun it => it.status == ItemStatus.failed).length =
        l.length := by
  intro l
  induction l with
  | nil => intro _; rfl
  | cons it rest ih =>
    intro h
    have ihr := ih fun x hx => h x (List.mem_cons_of_mem it hx)
    rcases h it (List.mem_cons_self it rest) with hs | hs <;>
      · simp only [List.filter_cons, hs]
        simp
        omega

/-- C4 (amended): the promise returned by a batch drain call resolves after a
single dispatch round over the first `min(maxConcurrent, pending)` pending
items, each of which receives exactly one attempt in that round; retries and
further rounds continue only in un-awaited background timers, so the resolved
snapshot need not be terminal (an undispatched item, or one returned to
pending for retry, is still `pending` at resolution).  When every item fits
into the round (`totalItems ≤ maxConcurrent`) and every dispatched attempt
leaves its item terminal — success, or failure with the retry budget already
exhausted — the queue is fully drained at resolution: no item is `pending` or
`processing` and `completedItems + failedItems = totalItems`. -/
theorem batch_drain_resolution (cfg : BatchConfig)
    (oracle : String → AttemptOutcome) (queue : List BatchTaskItem)
    (hlen : queue.length ≤ cfg.maxConcurrent)
    (hpend : ∀ it ∈ queue, it.status = ItemStatus.pending)
    (hterm : ∀ it ∈ queue,
      (applyOutcome cfg it (oracle it.id)).status ≠ ItemStatus.pending) :
    (∀ it ∈ processQueueRound cfg oracle queue,
      it.status ≠ ItemStatus.pending ∧ it.status ≠ ItemStatus.processing) ∧
    (queueStatus (processQueueRound cfg oracle queue)).completedItems +
      (queueStatus (processQueueRound cfg oracle queue)).failedItems =
      (queueStatus (processQueueRound cfg oracle queue)).totalItems := by
  have hfilter :
      (queue.filter fun it => it.status == ItemStatus.pending) = queue := by
    rw [List.filter_eq_self]
    intro it hit
    simp [hpend it hit]
  have htake :
      ((queue.filter fun it => it.status == ItemStatus.pending).map
        BatchTaskItem.id).take cfg.maxConcurrent = queue.map BatchTaskItem.id := by
    rw [hfilter]
    exact List.take_of_length_le (by simpa using hlen)
  have hall : ∀ it ∈ processQueueRound cfg oracle queue,
      it.status = ItemStatus.completed ∨ it.status = ItemStatus.failed := by
    intro it' hit'
    have hmem' : it' ∈ queue.map fun it =>
        if it.id ∈ queue.map BatchTaskItem.id then
          applyOutcome cfg it (oracle it.id)
        else it := by
      simpa only [processQueueRound, htake] using hit'
    obtain ⟨it, hit, rfl⟩ := List.mem_map.mp hmem'
    rw [if_pos (List.mem_map.mpr ⟨it, hit, rfl⟩)]
    have h1 := hterm it hit
    have h2 := applyOutcome_status_ne_processing cfg it (oracle it.id)
    cases hs : (applyOutcome cfg it (oracle it.id)).status with
    | pending => exact absurd hs h1
    | processing => exact absurd hs h2
    | completed => exact Or.inl rfl
    | failed => exact Or.inr rfl
  refine ⟨?_, ?_⟩
  · intro it hit
    rcases hall it hit with hs | hs <;> rw [hs] <;>
      exact ⟨by decide, by decide⟩
  · have := terminal_filter_count (processQueueRound cfg oracle queue) hall
    simpa [queueStatus] using this

/-- C4 witness: two items, `maxConcurrent = 2`, `retryCount = 1`; the first
item's attempt succeeds and the second item's attempt fails terminally (the
incremented counter is not below the configured budget), and the round still
drains the queue. -/
theorem batch_drain_resolution_witness :
    (∀ it ∈ processQueueRound ⟨2, 1, 0⟩
        (fun id => if id = "q_0_0" then AttemptOutcome.ok "v"
          else AttemptOutcome.err "boom")
        (mkBatchItems "q" ["a", "b"] 0),
      it.status ≠ ItemStatus.pending ∧ it.status ≠ ItemStatus.processing) ∧
    (queueStatus (processQueueRound ⟨2, 1, 0⟩
        (fun id => if id = "q_0_0" then AttemptOutcome.ok "v"
          else AttemptOutcome.err "boom")
        (mkBatchItems "q" ["a", "b"] 0))).completedItems +
      (queueStatus (processQueueRound ⟨2, 1, 0⟩
        (fun id => if id = "q_0_0" then AttemptOutcome.ok "v"
          else AttemptOutcome.err "boom")
        (mkBatchItems "q" ["a", "b"] 0))).failedItems =
      (queueStatus (processQueueRound ⟨2, 1, 0⟩
        (fun id => if id = "q_0_0" then AttemptOutcome.ok "v"
          else AttemptOutcome.err "boom")
        (mkBatchItems "q" ["a", "b"] 0))).totalItems :=
  batch_drain_resolution ⟨2, 1, 0⟩
    (fun id => if id = "q_0_0" then AttemptOutcome.ok "v"
      else AttemptOutcome.err "boom")
    (mkBatchItems "q" ["a", "b"] 0) (by decide) (by decide) (by decide)

/-! ### Concurrency bound of the drain (`processingSet`)

The drain interleaves synchronous prologues of `processItem` calls (from
`processQueue`'s dispatch loop and from retry timers) with resolutions of
in-flight attempts.  Between an await's resolution and the `finally` that
removes the id from `processingSet` no other code runs, so the observable
atomic events are the two below.  The model is deliberately more permissive
than the source (any event may occur at any time); the bound proved over all
traces therefore covers every real interleaving. -/

/-- One atomic scheduling event: `invoke id` is the synchronous prologue of a
`processItem` call (guard on `processingSet.size`, `add`, mark `processing`);
`settle id o` is the resolution of an attempt (`try`/`catch` body plus the
`finally` deleting the id from the set). -/
inductive DrainEvent
  | invoke (id : String)
  | settle (id : String) (o : AttemptOutcome)

/-- The mutable state of one queue's drain: the item array and the in-flight
id set. -/
structure DrainState where
  queue : List BatchTaskItem
  processingSet : Finset String

/-- Mutate the (unique) item with the given id, as the aliased `item`
reference does in the source. -/
def updItem (q : List BatchTaskItem) (id : String)
    (f : BatchTaskItem → BatchTaskItem) : List BatchTaskItem :=
  q.map fun it => if it.id = id then f it else it

/-- Small-step semantics of one event.  `invoke` is a no-op when
`processingSet.size >= config.maxConcurrent` (the early `return`). -/
def drainStep (cfg : BatchConfig) (s : DrainState) : DrainEvent → DrainState
  | DrainEvent.invoke id =>
    if cfg.maxConcurrent ≤ s.processingSet.card then s
    else
      { queue := updItem s.queue id fun it =>
          { it with status := ItemStatus.processing }
        processingSet := insert id s.processingSet }
  | DrainEvent.settle id o =>
    { queue := updItem s.queue id fun it => applyOutcome cfg it o
      processingSet := s.processingSet.erase id }

/-- A whole drain trace. -/
def drainRun (cfg : BatchConfig) (s : DrainState) (es : List DrainEvent) :
    DrainState :=
  es.foldl (drainStep cfg) s

/-- Number of items currently marked `processing`. -/
def processingCount (q : List BatchTaskItem) : Nat :=
  (q.filter fun it => it.status == ItemStatus.processing).length

/-- Drain invariant: item ids are distinct, the in-flight set respects the
bound, and every `processing` item is in the in-flight set. -/
def DrainInv (cfg : BatchConfig) (s : DrainState) : Prop :=
  (s.queue.map BatchTaskItem.id).Nodup ∧
  s.processingSet.card ≤ cfg.maxConcurrent ∧
  ∀ it ∈ s.queue, it.status = ItemStatus.processing →
    it.id ∈ s.processingSet

lemma applyOutcome_id (cfg : BatchConfig) (it : BatchTaskItem)
    (o : AttemptOutcome) : (applyOutcome cfg it o).id = it.id := by
  cases o with
  | ok v => rfl
  | err m =>
    show (applyFailure cfg it m).id = it.id
    unfold applyFailure
    split <;> rfl

lemma updItem_ids (q : List BatchTaskItem) (id : String)
    (f : BatchTaskItem → BatchTaskItem) (hf : ∀ it, (f it).id = it.id) :
    (updItem q id f).map BatchTaskItem.id = q.map BatchTaskItem.id := by
  unfold updItem
  rw [List.map_map]
  refine List.map_congr_left ?_
  intro it _
  by_cases h : it.id = id
  · simp [h, hf]
  · simp [h]

lemma drainStep_inv (cfg : BatchConfig) (s : DrainState) (e : DrainEvent)
    (h : DrainInv cfg s) : DrainInv cfg (drainStep cfg s e) := by
  obtain ⟨hnd, hcard, hmem⟩ := h
  cases e with
  | invoke id =>
    by_cases hg : cfg.maxConcurrent ≤ s.processingSet.card
    · simpa [drainStep, hg] using ⟨hnd, hcard, hmem⟩
    · push_neg at hg
      refine ⟨?_, ?_, ?_⟩ <;> simp only [drainStep, if_neg (not_le.mpr hg)]
      · rw [updItem_ids]
        · exact hnd
        · intro it
          rfl
      · calc (insert id s.processingSet).card ≤ s.processingSet.card + 1 :=
              Finset.card_insert_le _ _
          _ ≤ cfg.maxConcurrent := hg
      · intro it' hit' hst
        obtain ⟨it, hit, rfl⟩ := List.mem_map.mp hit'
        by_cases he : it.id = id
        · rw [if_pos he]
          show it.id ∈ insert id s.processingSet
          rw [he]
          exact Finset.mem_insert_self id _
        · rw [if_neg he]
          rw [if_neg he] at hst
          exact Finset.mem_insert_of_mem (hmem it hit hst)
  | settle id o =>
    refine ⟨?_, ?_, ?_⟩ <;> simp only [drainStep]
    · rw [updItem_ids]
      · exact hnd
      · intro it
        exact applyOutcome_id cfg it o
    · exact le_trans (Finset.card_erase_le) hcard
    · intro it' hit' hst
      obtain ⟨it, hit, rfl⟩ := List.mem_map.mp hit'
      by_cases he : it.id = id
      · rw [if_pos he] at hst
        exact absurd hst (applyOutcome_status_ne_processing cfg it o)
      · rw [if_neg he] at hst ⊢
        exact Finset.mem_erase.mpr ⟨he, hmem it hit hst⟩

lemma drainRun_inv (cfg : BatchConfig) (es : List DrainEvent) :
    ∀ s : DrainState, DrainInv cfg s → DrainInv cfg (drainRun cfg s es) := by
  induction es with
  | nil => intro s h; exact h
  | cons e rest ih =>
    intro s h
    exact ih (drainStep cfg s e) (drainStep_inv cfg s e h)

lemma processingCount_le_of_inv (cfg : BatchConfig) (s : DrainState)
    (h : DrainInv cfg s) : processingCount s.queue ≤ cfg.maxConcurrent := by
  obtain ⟨hnd, hcard, hmem⟩ := h
  have h1 : ((s.queue.filter fun it =>
      it.status == ItemStatus.processing).map BatchTaskItem.id).Nodup :=
    List.Nodup.sublist (List.Sublist.map _ (List.filter_sublist _)) hnd
  have h2 : ∀ a ∈ (s.queue.filter fun it =>
      it.status == ItemStatus.processing).map BatchTaskItem.id,
      a ∈ s.processingSet := by
    intro a ha
    obtain ⟨it, hit, rfl⟩ := List.mem_map.mp ha
    have hm := List.mem_filter.mp hit
    exact hmem it hm.1 (by simpa using hm.2)
  calc processingCount s.queue
      = ((s.queue.filter fun it =>
          it.status == ItemStatus.processing).map BatchTaskItem.id).length := by
        rw [List.length_map]
        rfl
    _ = ((s.queue.filter fun it =>
          it.status == ItemStatus.processing).map BatchTaskItem.id).toFinset.card :=
        (List.toFinset_card_of_nodup h1).symm
    _ ≤ s.processingSet.card :=
        Finset.card_le_card (fun a ha => h2 a (List.mem_toFinset.mp ha))
    _ ≤ cfg.maxConcurrent := hcard

lemma mkBatchItems_status (queueId : String) (items : List String) (now : Nat) :
    ∀ it ∈ mkBatchItems queueId items now, it.status = ItemStatus.pending := by
  intro it hit
  simp only [mkBatchItems, List.mem_map] at hit
  obtain ⟨p, _, rfl⟩ := hit
  rfl

/-- C6 (confirmed): starting from a freshly created queue with an empty
in-flight set, after any interleaving of `processItem` prologues and attempt
resolutions, the number of items with status `processing` never exceeds
`maxConcurrent`.  The guard at the top of `processItem` admits an id into the
set only while `processingSet.size < maxConcurrent`, every item marked
`processing` is in the set, and the ids are distinct (the distinctness of the
index-tagged id strings produced by `createBatchQueue` is taken as the
hypothesis `hnd`, discharged by evaluation). -/
theorem processing_bounded_by_max_concurrent (cfg : BatchConfig)
    (queueId : String) (items : List String) (now : Nat)
    (es : List DrainEvent)
    (hnd : ((mkBatchItems queueId items now).map BatchTaskItem.id).Nodup) :
    processingCount
      (drainRun cfg
        { queue := mkBatchItems queueId items now, processingSet := ∅ }
        es).queue ≤ cfg.maxConcurrent := by
  refine processingCount_le_of_inv cfg _ (drainRun_inv cfg es _ ?_)
  refine ⟨hnd, by simp, ?_⟩
  intro it hit hst
  rw [mkBatchItems_status queueId items now it hit] at hst
  cases hst

/-- C6 witness: a two-item queue drained with `maxConcurrent = 1` under a
trace that tries to over-invoke. -/
theorem processing_bounded_by_max_concurrent_witness :
    processingCount
      (drainRun ⟨1, 0, 0⟩
        { queue := mkBatchItems "q" ["a", "b"] 0, processingSet := ∅ }
        [DrainEvent.invoke "q_0_0", DrainEvent.invoke "q_1_0",
         DrainEvent.settle "q_0_0" (AttemptOutcome.ok "v"),
         DrainEvent.invoke "q_1_0"]).queue ≤ 1 :=
  processing_bounded_by_max_concurrent ⟨1, 0, 0⟩ "q" ["a", "b"] 0
    [DrainEvent.invoke "q_0_0", DrainEvent.invoke "q_1_0",
     DrainEvent.settle "q_0_0" (AttemptOutcome.ok "v"),
     DrainEvent.invoke "q_1_0"] (by decide)

/-! ### WorkflowExecutor

Embedding of the `WorkflowExecutor` class: `runWorkflow` executes the steps
strictly in list order, checking each step's `dependencies` against
`execution.results` (keyed by `outputKey`) immediately before the step runs,
and `executeStep` renders the step template by repeated global string
replacement over the merged template data.  JS objects
(`results`, template data) are embedded as association lists with JS
object-literal semantics (insertion order, in-place update). -/

/-- Workflow execution status, from `config/workflows.ts`. -/
inductive WStatus
  | pending
  | running
  | completed
  | failed
  | paused
deriving DecidableEq, Repr

/-- `WorkflowStep` (the fields read by the executor).  `template?` is read as
`step.template || ''`, so a missing template is the empty string;
`dependencies?` likewise defaults to the empty list. -/
structure WorkflowStepM where
  id : String
  name : String
  promptType : String
  template : String
  dependencies : List String
  outputKey : String
deriving DecidableEq, Repr

/-- `WorkflowExecution` (the fields the executor mutates; timestamps and the
execution id are irrelevant to the claims). -/
structure WorkflowExecutionM where
  status : WStatus
  currentStep : Nat
  results : List (String × String)
  error : Option String
  progress : Nat
deriving DecidableEq, Repr

/-- JS object property read (`o[k]`), on an insertion-ordered entry list. -/
def lookupStr (o : List (String × String)) (k : String) : Option String :=
  (o.find? fun p => p.1 == k).map Prod.snd

/-- JS object property write (`o[k] = v`): updates the value in place if the
key exists, else appends the entry. -/
def objUpsert (o : List (String × String)) (k : String) (v : String) :
    List (String × String) :=
  if o.any fun p => p.1 == k then
    o.map fun p => if p.1 == k then (k, v) else p
  else
    o ++ [(k, v)]

/-- JS object spread (`{...base, ...upd}`). -/
def objSpread (base upd : List (String × String)) :
    List (String × String) :=
  upd.foldl (fun acc p => objUpsert acc p.1 p.2) base

/-- Global, left-to-right, non-overlapping replacement of `pat` by `rep` in a
character list, the semantics of `String.prototype.replace` with a global
literal regexp.  `fuel` decreases by one per consumed position;
`s.length` is always enough fuel. -/
def replaceChars (pat rep : List Char) : Nat → List Char → List Char
  | _, [] => []
  | 0, s => s
  | fuel + 1, c :: rest =>
    if pat ≠ [] ∧ (c :: rest).take pat.length = pat then
      rep ++ replaceChars pat rep fuel ((c :: rest).drop pat.length)
    else
      c :: replaceChars pat rep fuel rest

/-- `s.replace(new RegExp(pat, 'g'), rep)` for a literal pattern. -/
def replaceAll (s pat rep : String) : String :=
  ⟨replaceChars pat.data rep.data s.data.length s.data⟩

/-- The substitution loop of `executeStep`:
`Object.entries(templateData).forEach(([key, value]) =>
  prompt = prompt.replace(new RegExp('\x7b'+key+'\x7d','g'), String(value)))`. -/
def renderTemplate (data : List (String × String)) (template : String) :
    String :=
  data.foldl (fun acc kv => replaceAll acc ("\x7b" ++ kv.1 ++ "\x7d") kv.2)
    template

/-- The template data of `executeStep`:
`{ ...params, ...previousResults, content: previousResults.content || '',
   title: previousResults.title || '' }`.
The `content` and `title` keys are always (re)bound from `previousResults`
alone, with `''` as the fallback — a `content`/`title` field of `params` is
overwritten here. -/
def buildTemplateData (params results : List (String × String)) :
    List (String × String) :=
  objUpsert
    (objUpsert (objSpread (objSpread [] params) results)
      "content" ((lookupStr results "content").getD ""))
    "title" ((lookupStr results "title").getD "")

/-- The prompt `executeStep` sends for a step, given the initial `params` and
the accumulated `previousResults`. -/
def renderStepPrompt (step : WorkflowStepM)
    (params results : List (String × String)) : String :=
  renderTemplate (buildTemplateData params results) step.template

/-- The `promptType` values with a `case` arm in `executeStep`; every one of
them dispatches one `adapter.generateText` call with the rendered prompt. -/
def allowedPromptTypes : List String :=
  ["content", "title", "description", "cover", "video"]

/-- `Math.round(num / den)` on non-negative rationals. -/
def jsRound (num den : Nat) : Nat :=
  (2 * num + den) / (2 * den)

/-- `WorkflowExecutor.cancel` on the execution object: only a `running` or
`paused` execution is marked `failed` with the user-cancellation message. -/
def cancelExec (e : WorkflowExecutionM) : WorkflowExecutionM :=
  if e.status = WStatus.running ∨ e.status = WStatus.paused then
    { e with status := WStatus.failed, error := some "用户取消" }
  else
    e

/-- The step loop of `runWorkflow` (inside its `try`), with the `catch`
epilogue inlined into each throwing branch.  `cap` is the
GenerationCapability (`adapter.generateText`), fed the step's `promptType`
and rendered prompt.  `cancelAfter = some j` injects a `cancel()` call during
the await of step `j` (the only suspension points of the loop); the loop body
itself never reads `execution.status`, so the run continues regardless.  The
returned list is the trace of prompts actually dispatched to `cap`. -/
def runStepsAux (cap : String → String → Except String String)
    (params : List (String × String)) (cancelAfter : Option Nat)
    (total : Nat) :
    List WorkflowStepM → Nat → WorkflowExecutionM → List String →
    WorkflowExecutionM × List String
  | [], _, e, tr =>
    ({ e with status := WStatus.completed, progress := 100 }, tr)
  | step :: rest, i, e, tr =>
    match step.dependencies.find?
        (fun dep => ((lookupStr e.results dep).getD "").isEmpty) with
    | some dep =>
      ({ e with status := WStatus.failed,
                error := some ("依赖步骤 " ++ dep ++ " 未完成") }, tr)
    | none =>
      if step.promptType ∈ allowedPromptTypes then
        match cap step.promptType (renderStepPrompt step params e.results) with
        | Except.error msg =>
          ({ (if cancelAfter = some i then
                cancelExec { e with currentStep := i,
                                    progress := jsRound (i * 100) total }
              else { e with currentStep := i,
                            progress := jsRound (i * 100) total }) with
              status := WStatus.failed, error := some msg },
           tr ++ [renderStepPrompt step params e.results])
        | Except.ok v =>
          runStepsAux cap params cancelAfter total rest (i + 1)
            { (if cancelAfter = some i then
                cancelExec { e with currentStep := i,
                                    progress := jsRound (i * 100) total }
              else { e with currentStep := i,
                            progress := jsRound (i * 100) total }) with
              results := objUpsert e.results step.outputKey v }
            (tr ++ [renderStepPrompt step params e.results])
      else
        ({ e with currentStep := i, progress := jsRound (i * 100) total,
                  status := WStatus.failed,
                  error := some ("未知的步骤类型: " ++ step.promptType) }, tr)

/-- `runWorkflow`: status `running`, then the step loop from index 0 with
empty `results`; there is no upfront dependency/DAG validation anywhere
(`execute` only looks the workflow up and fires `runWorkflow`
asynchronously). -/
def runWorkflowM (cap : String → String → Except String String)
    (steps : List WorkflowStepM) (params : List (String × String))
    (cancelAfter : Option Nat) : WorkflowExecutionM × List String :=
  runStepsAux cap params cancelAfter steps.length steps 0
    { status := WStatus.running, currentStep := 0, results := [],
      error := none, progress := 0 } []

@[simp] lemma cancelExec_results (e : WorkflowExecutionM) :
    (cancelExec e).results = e.results := by
  unfold cancelExec
  split <;> rfl

/-- C3 (counterexample): a 3-step workflow whose step 2 declares a forward
reference to step 3's output key is *not* rejected at submission: step 1 runs
(one GenerationCapability call is dispatched, so the call trace is non-empty),
and only then is the execution marked failed, at runtime, with the per-step
missing-dependency message. -/
theorem workflow_forward_ref_cx :
    (runWorkflowM (fun _ _ => Except.ok "RES")
      [⟨"step1", "a", "content", "T1", [], "content"⟩,
       ⟨"step2", "b", "title", "T2", ["video_out"], "title"⟩,
       ⟨"step3", "c", "video", "T3", [], "video_out"⟩] [] none).2.length = 1 ∧
    (runWorkflowM (fun _ _ => Except.ok "RES")
      [⟨"step1", "a", "content", "T1", [], "content"⟩,
       ⟨"step2", "b", "title", "T2", ["video_out"], "title"⟩,
       ⟨"step3", "c", "video", "T3", [], "video_out"⟩] [] none).1.status =
      WStatus.failed ∧
    (runWorkflowM (fun _ _ => Except.ok "RES")
      [⟨"step1", "a", "content", "T1", [], "content"⟩,
       ⟨"step2", "b", "title", "T2", ["video_out"], "title"⟩,
       ⟨"step3", "c", "video", "T3", [], "video_out"⟩] [] none).1.error =
      some "依赖步骤 video_out 未完成" ∧
    ¬ (runWorkflowM (fun _ _ => Except.ok "RES")
      [⟨"step1", "a", "content", "T1", [], "content"⟩,
       ⟨"step2", "b", "title", "T2", ["video_out"], "title"⟩,
       ⟨"step3", "c", "video", "T3", [], "video_out"⟩] [] none).2.length = 0 := by
  refine ⟨by decide, by decide, by decide, by decide⟩

/-- C3 (amended): there is no submission-time dependency validation; a forward
reference is detected only when the violating step is reached at runtime: for
a 3-step workflow whose step 2 depends on a key that step 1 does not publish
(step 3's output key), step 1 executes and its prompt is dispatched to
GenerationCapability, after which the execution is marked failed with the
missing-dependency error and step 3 never runs. -/
theorem workflow_forward_ref_runtime
    (cap : String → String → Except String String)
    (params : List (String × String)) (s1 s2 s3 : WorkflowStepM)
    (k v : String)
    (hd1 : s1.dependencies = [])
    (hdep : s2.dependencies = [k])
    (hk : k ≠ s1.outputKey)
    (ht : s1.promptType ∈ allowedPromptTypes)
    (hcap : cap s1.promptType (renderStepPrompt s1 params []) = Except.ok v) :
    (runWorkflowM cap [s1, s2, s3] params none).1.status = WStatus.failed ∧
    (runWorkflowM cap [s1, s2, s3] params none).1.error =
      some ("依赖步骤 " ++ k ++ " 未完成") ∧
    (runWorkflowM cap [s1, s2, s3] params none).2 =
      [renderStepPrompt s1 params []] := by
  have hup : objUpsert [] s1.outputKey v = [(s1.outputKey, v)] := by
    simp [objUpsert]
  have hbe : (s1.outputKey == k) = false :=
    beq_eq_false_iff_ne.mpr (Ne.symm hk)
  have hlk : lookupStr [(s1.outputKey, v)] k = none := by
    simp [lookupStr, List.find?, hbe]
  have hp : (((lookupStr [(s1.outputKey, v)] k).getD "").isEmpty) = true := by
    rw [hlk]
    rfl
  have hfind : [k].find?
      (fun dep => ((lookupStr [(s1.outputKey, v)] dep).getD "").isEmpty) =
      some k := List.find?_cons_of_pos [] hp
  simp only [runWorkflowM, runStepsAux, hd1, List.find?_nil, if_pos ht, hcap,
    hup, hdep, hfind]
  refine ⟨?_, ?_, ?_⟩ <;> simp

/-- C3 witness: the concrete Scenario C workflow. -/
theorem workflow_forward_ref_runtime_witness :
    (runWorkflowM (fun _ _ => Except.ok "RES")
      [⟨"step1", "a", "content", "T1", [], "content"⟩,
       ⟨"step2", "b", "title", "T2", ["video_out"], "title"⟩,
       ⟨"step3", "c", "video", "T3", [], "video_out"⟩] [] none).1.status =
      WStatus.failed ∧
    (runWorkflowM (fun _ _ => Except.ok "RES")
      [⟨"step1", "a", "content", "T1", [], "content"⟩,
       ⟨"step2", "b", "title", "T2", ["video_out"], "title"⟩,
       ⟨"step3", "c", "video", "T3", [], "video_out"⟩] [] none).1.error =
      some ("依赖步骤 " ++ "video_out" ++ " 未完成") ∧
    (runWorkflowM (fun _ _ => Except.ok "RES")
      [⟨"step1", "a", "content", "T1", [], "content"⟩,
       ⟨"step2", "b", "title", "T2", ["video_out"], "title"⟩,
       ⟨"step3", "c", "video", "T3", [], "video_out"⟩] [] none).2 =
      [renderStepPrompt ⟨"step1", "a", "content", "T1", [], "content"⟩ [] []] :=
  workflow_forward_ref_runtime (fun _ _ => Except.ok "RES") []
    ⟨"step1", "a", "content", "T1", [], "content"⟩
    ⟨"step2", "b", "title", "T2", ["video_out"], "title"⟩
    ⟨"step3", "c", "video", "T3", [], "video_out"⟩
    "video_out" "RES" rfl rfl (by decide) (by decide) rfl

/-- The step loop never reads the execution's `status`/`error` fields, so an
injected `cancel()` changes neither the dispatched prompts, nor the final
status, nor the accumulated results, compared to the uncancelled run. -/
lemma runStepsAux_cancel_agnostic (cap : String → String → Except String String)
    (params : List (String × String)) (j total : Nat) :
    ∀ (steps : List WorkflowStepM) (i : Nat) (tr : List String)
      (e1 e2 : WorkflowExecutionM), e1.results = e2.results →
      (runStepsAux cap params (some j) total steps i e1 tr).1.status =
        (runStepsAux cap params none total steps i e2 tr).1.status ∧
      (runStepsAux cap params (some j) total steps i e1 tr).2 =
        (runStepsAux cap params none total steps i e2 tr).2 ∧
      (runStepsAux cap params (some j) total steps i e1 tr).1.results =
        (runStepsAux cap params none total steps i e2 tr).1.results := by
  intro steps
  induction steps with
  | nil =>
    intro i tr e1 e2 h
    exact ⟨rfl, rfl, h⟩
  | cons step rest ih =>
    intro i tr e1 e2 h
    simp only [runStepsAux, h]
    cases hfind : step.dependencies.find?
        (fun dep => ((lookupStr e2.results dep).getD "").isEmpty) with
    | some dep => exact ⟨rfl, rfl, rfl⟩
    | none =>
      by_cases hpt : step.promptType ∈ allowedPromptTypes
      · rw [if_pos hpt, if_pos hpt]
        cases hcap : cap step.promptType
            (renderStepPrompt step params e2.results) with
        | error msg =>
          refine ⟨rfl, rfl, ?_⟩
          by_cases hc : (some j : Option Nat) = some i <;>
            simp [hc, cancelExec_results]
        | ok v =>
          exact ih (i + 1) (tr ++ [renderStepPrompt step params e2.results])
            _ _ rfl
      · rw [if_neg hpt, if_neg hpt]
        exact ⟨rfl, rfl, rfl⟩

/-- C5 (counterexample): cancelling during step 1 of a 2-step workflow does
not stop the run at the next step boundary: step 2 is still dispatched (two
prompts reach GenerationCapability) and the loop's epilogue overwrites the
cancellation, ending the execution with status `completed` — only the stale
`用户取消` error text betrays that cancel ever ran. -/
theorem workflow_cancel_cx :
    (runWorkflowM (fun _ _ => Except.ok "RES")
      [⟨"step1", "a", "content", "T1", [], "content"⟩,
       ⟨"step2", "b", "title", "T2", [], "title"⟩] [] (some 0)).1.status =
      WStatus.completed ∧
    (runWorkflowM (fun _ _ => Except.ok "RES")
      [⟨"step1", "a", "content", "T1", [], "content"⟩,
       ⟨"step2", "b", "title", "T2", [], "title"⟩] [] (some 0)).2.length = 2 ∧
    (runWorkflowM (fun _ _ => Except.ok "RES")
      [⟨"step1", "a", "content", "T1", [], "content"⟩,
       ⟨"step2", "b", "title", "T2", [], "title"⟩] [] (some 0)).1.error =
      some "用户取消" := by
  refine ⟨by decide, by decide, by decide⟩

/-- C5 (amended): `cancel` immediately marks a running execution `failed` with
the user-cancellation error, but the running loop never observes the flag: the
run dispatches exactly the same prompts, accumulates the same results, and
ends in the same final status as the uncancelled run — in particular a run
whose steps all succeed ends `completed`, overwriting the cancellation. -/
theorem workflow_cancel_ignored (cap : String → String → Except String String)
    (steps : List WorkflowStepM) (params : List (String × String)) (j : Nat) :
    (runWorkflowM cap steps params (some j)).1.status =
      (runWorkflowM cap steps params none).1.status ∧
    (runWorkflowM cap steps params (some j)).2 =
      (runWorkflowM cap steps params none).2 ∧
    (runWorkflowM cap steps params (some j)).1.results =
      (runWorkflowM cap steps params none).1.results ∧
    ∀ e : WorkflowExecutionM, e.status = WStatus.running →
      (cancelExec e).status = WStatus.failed ∧
      (cancelExec e).error = some "用户取消" := by
  obtain ⟨h1, h2, h3⟩ :=
    runStepsAux_cancel_agnostic cap params j steps.length steps 0 []
      { status := WStatus.running, currentStep := 0, results := [],
        error := none, progress := 0 }
      { status := WStatus.running, currentStep := 0, results := [],
        error := none, progress := 0 } rfl
  refine ⟨h1, h2, h3, ?_⟩
  intro e he
  unfold cancelExec
  rw [if_pos (Or.inl he)]
  exact ⟨rfl, rfl⟩

/-- C5 witness: the 2-step all-success workflow, cancelled during step 1. -/
theorem workflow_cancel_ignored_witness :
    ((runWorkflowM (fun _ _ => Except.ok "RES")
        [⟨"step1", "a", "content", "T1", [], "content"⟩,
         ⟨"step2", "b", "title", "T2", [], "title"⟩] [] (some 0)).1.status =
      (runWorkflowM (fun _ _ => Except.ok "RES")
        [⟨"step1", "a", "content", "T1", [], "content"⟩,
         ⟨"step2", "b", "title", "T2", [], "title"⟩] [] none).1.status) ∧
    ((cancelExec
        { status := WStatus.running, currentStep := 0, results := [],
          error := none, progress := 0 }).status = WStatus.failed ∧
     (cancelExec
        { status := WStatus.running, currentStep := 0, results := [],
          error := none, progress := 0 }).error = some "用户取消") :=
  ⟨(workflow_cancel_ignored (fun _ _ => Except.ok "RES")
      [⟨"step1", "a", "content", "T1", [], "content"⟩,
       ⟨"step2", "b", "title", "T2", [], "title"⟩] [] 0).1,
   (workflow_cancel_ignored (fun _ _ => Except.ok "RES")
      [⟨"step1", "a", "content", "T1", [], "content"⟩,
       ⟨"step2", "b", "title", "T2", [], "title"⟩] [] 0).2.2.2
     { status := WStatus.running, currentStep := 0, results := [],
       error := none, progress := 0 } rfl⟩



/-- The opening brace character of a `\x7bkey\x7d` placeholder. -/
def lbrace : Char := '\x7b'

/-- The closing brace character of a `\x7bkey\x7d` placeholder. -/
def rbrace : Char := '\x7d'

lemma replaceChars_nil (pat rep : List Char) (f : Nat) :
    replaceChars pat rep f [] = [] := by
  cases f <;> rfl

lemma replaceChars_zero (pat rep : List Char) (s : List Char) :
    replaceChars pat rep 0 s = s := by
  cases s <;> rfl

lemma replaceChars_cons_pos (pat rep : List Char) (f : Nat) (c : Char)
    (rest : List Char) (hm : pat ≠ [] ∧ (c :: rest).take pat.length = pat) :
    replaceChars pat rep (f + 1) (c :: rest) =
      rep ++ replaceChars pat rep f ((c :: rest).drop pat.length) := by
  simp only [replaceChars]
  rw [if_pos hm]

lemma replaceChars_cons_neg (pat rep : List Char) (f : Nat) (c : Char)
    (rest : List Char) (hm : ¬ (pat ≠ [] ∧ (c :: rest).take pat.length = pat)) :
    replaceChars pat rep (f + 1) (c :: rest) =
      c :: replaceChars pat rep f rest := by
  simp only [replaceChars]
  rw [if_neg hm]

lemma replaceChars_fuel (pat rep : List Char) :
    ∀ (f₁ f₂ : Nat) (s : List Char), s.length ≤ f₁ → s.length ≤ f₂ →
      replaceChars pat rep f₁ s = replaceChars pat rep f₂ s := by
  intro f₁
  induction f₁ with
  | zero =>
    intro f₂ s h1 _
    have hs : s = [] := List.eq_nil_of_length_eq_zero (Nat.le_zero.mp h1)
    subst hs
    rw [replaceChars_nil, replaceChars_nil]
  | succ g ih =>
    intro f₂ s h1 h2
    cases s with
    | nil => rw [replaceChars_nil, replaceChars_nil]
    | cons c rest =>
      cases f₂ with
      | zero => simp at h2
      | succ g2 =>
        by_cases hm : pat ≠ [] ∧ (c :: rest).take pat.length = pat
        · rw [replaceChars_cons_pos pat rep g c rest hm,
            replaceChars_cons_pos pat rep g2 c rest hm]
          congr 1
          have hplen : 1 ≤ pat.length := by
            cases hpat : pat with
            | nil => exact absurd hpat hm.1
            | cons p pt => simp [hpat]
          have hdlen : ((c :: rest).drop pat.length).length ≤ rest.length := by
            rw [List.length_drop]
            simp only [List.length_cons]
            omega
          exact ih g2 _ (le_trans hdlen (Nat.lt_succ_iff.mp (Nat.lt_of_lt_of_le (Nat.lt_succ_of_le le_rfl) h1)))
            (le_trans hdlen (by simp at h2; omega))
        · rw [replaceChars_cons_neg pat rep g c rest hm,
            replaceChars_cons_neg pat rep g2 c rest hm]
          congr 1
          exact ih g2 rest (by simp at h1; omega) (by simp at h2; omega)

lemma replaceChars_append_left (pat rep pt : List Char)
    (hpat : pat = lbrace :: pt) :
    ∀ (a s : List Char) (f : Nat), lbrace ∉ a → (a ++ s).length ≤ f →
      replaceChars pat rep f (a ++ s) =
        a ++ replaceChars pat rep (f - a.length) s := by
  intro a
  induction a with
  | nil =>
    intro s f _ _
    simp
  | cons c a' ih =>
    intro s f hmem hlen
    have hcne : c ≠ lbrace := fun h => hmem (h ▸ List.mem_cons_self c a')
    cases f with
    | zero =>
      simp only [List.cons_append, List.length_cons] at hlen
      omega
    | succ g =>
      rw [List.cons_append]
      rw [replaceChars_cons_neg]
      · rw [ih s g (fun h => hmem (List.mem_cons_of_mem c h))
          (by simp only [List.cons_append, List.length_cons] at hlen; omega)]
        simp [List.length_cons, Nat.succ_sub_succ]
      · rintro ⟨-, htake⟩
        rw [hpat] at htake
        have hlen9 : pat.length = pt.length + 1 := by rw [hpat]; rfl
        rw [hpat] at hlen9
        simp only [List.length_cons] at hlen9
        rw [show (lbrace :: pt).length = pt.length + 1 from rfl,
          List.take_succ_cons] at htake
        exact hcne (List.cons.inj htake).1

lemma replaceChars_append_self (pat rep : List Char) (hpat : pat ≠ [])
    (s : List Char) (f : Nat) (hf : (pat ++ s).length ≤ f) :
    replaceChars pat rep f (pat ++ s) =
      rep ++ replaceChars pat rep s.length s := by
  obtain ⟨p, pt, hps⟩ := List.exists_cons_of_ne_nil hpat
  cases f with
  | zero =>
    rw [hps] at hf
    simp only [List.cons_append, List.length_cons] at hf
    omega
  | succ g =>
    have hcons : pat ++ s = p :: (pt ++ s) := by rw [hps]; rfl
    rw [hcons, replaceChars_cons_pos]
    · congr 1
      have hdrop : (p :: (pt ++ s)).drop pat.length = s := by
        rw [← hcons]
        exact List.drop_left pat s
      rw [hdrop]
      apply replaceChars_fuel
      · rw [hps] at hf
        simp only [List.cons_append, List.length_cons, List.length_append] at hf
        omega
      · exact le_rfl
    · refine ⟨hpat, ?_⟩
      rw [← hcons]
      exact List.take_left pat s

lemma replaceChars_no_lbrace (pat rep pt : List Char)
    (hpat : pat = lbrace :: pt) :
    ∀ (f : Nat) (s : List Char), lbrace ∉ s → replaceChars pat rep f s = s := by
  intro f
  induction f with
  | zero => intro s _; exact replaceChars_zero pat rep s
  | succ g ih =>
    intro s hmem
    cases s with
    | nil => exact replaceChars_nil pat rep _
    | cons c rest =>
      have hcne : c ≠ lbrace := fun h => hmem (h ▸ List.mem_cons_self c rest)
      rw [replaceChars_cons_neg]
      · rw [ih rest (fun h => hmem (List.mem_cons_of_mem c h))]
      · rintro ⟨-, htake⟩
        rw [hpat, show (lbrace :: pt).length = pt.length + 1 from rfl,
          List.take_succ_cons] at htake
        exact hcne (List.cons.inj htake).1

lemma replaceChars_single_lbrace (pat rep pt : List Char)
    (hpat : pat = lbrace :: pt) (B : List Char) (hB : lbrace ∉ B)
    (hno : ¬ (lbrace :: B).take pat.length = pat) :
    ∀ (A : List Char) (f : Nat), lbrace ∉ A →
      replaceChars pat rep f (A ++ lbrace :: B) = A ++ lbrace :: B := by
  intro A
  induction A with
  | nil =>
    intro f _
    cases f with
    | zero => exact replaceChars_zero pat rep _
    | succ g =>
      simp only [List.nil_append]
      rw [replaceChars_cons_neg]
      · rw [replaceChars_no_lbrace pat rep pt hpat g B hB]
      · rintro ⟨-, htake⟩
        exact hno htake
  | cons c A' ih =>
    intro f hmem
    have hcne : c ≠ lbrace := fun h => hmem (h ▸ List.mem_cons_self c A')
    cases f with
    | zero => exact replaceChars_zero pat rep _
    | succ g =>
      rw [List.cons_append]
      rw [replaceChars_cons_neg]
      · rw [ih g (fun h => hmem (List.mem_cons_of_mem c h))]
      · rintro ⟨-, htake⟩
        rw [hpat, show (lbrace :: pt).length = pt.length + 1 from rfl,
          List.take_succ_cons] at htake
        exact hcne (List.cons.inj htake).1


lemma patData (k : String) :
    ("\x7b" ++ k ++ "\x7d").data = lbrace :: (k.data ++ [rbrace]) := by
  show ("\x7b".data ++ k.data) ++ "\x7d".data = lbrace :: (k.data ++ [rbrace])
  simp [lbrace, rbrace]

lemma patData_ne (k : String) : ("\x7b" ++ k ++ "\x7d").data ≠ [] := by
  rw [patData]
  intro h
  cases h

lemma replaceAll_data (s pat v : String) :
    (replaceAll s pat v).data =
      replaceChars pat.data v.data s.data.length s.data := rfl

lemma replaceAll_no_lbrace (s k v : String) (hs : lbrace ∉ s.data) :
    replaceAll s ("\x7b" ++ k ++ "\x7d") v = s := by
  apply String.ext
  rw [replaceAll_data]
  exact replaceChars_no_lbrace _ _ (k.data ++ [rbrace]) (patData k) _ s.data hs

lemma replaceAll_match (k v pre rest : String) (hpre : lbrace ∉ pre.data) :
    replaceAll (pre ++ ("\x7b" ++ k ++ "\x7d") ++ rest) ("\x7b" ++ k ++ "\x7d") v
      = pre ++ v ++ replaceAll rest ("\x7b" ++ k ++ "\x7d") v := by
  apply String.ext
  have hS : (pre ++ ("\x7b" ++ k ++ "\x7d") ++ rest).data
      = pre.data ++ (("\x7b" ++ k ++ "\x7d").data ++ rest.data) := by
    rw [String.data_append, String.data_append, List.append_assoc]
  have hR : (pre ++ v ++ replaceAll rest ("\x7b" ++ k ++ "\x7d") v).data
      = pre.data ++ (v.data ++
          replaceChars (("\x7b" ++ k ++ "\x7d").data) v.data
            rest.data.length rest.data) := by
    rw [String.data_append, String.data_append, replaceAll_data,
      List.append_assoc]
  rw [replaceAll_data, hS,
    replaceChars_append_left _ _ (k.data ++ [rbrace]) (patData k) pre.data _ _
      hpre le_rfl,
    replaceChars_append_self _ _ (patData_ne k) rest.data _
      (by simp only [List.length_append]; omega)]
  exact hR.symm

lemma replaceAll_skip_single (pre post k c v : String)
    (hpre : lbrace ∉ pre.data) (hpost : lbrace ∉ post.data)
    (hk : lbrace ∉ k.data)
    (hno : ¬ ((lbrace :: (k.data ++ rbrace :: post.data)).take
        ("\x7b" ++ c ++ "\x7d").data.length = ("\x7b" ++ c ++ "\x7d").data)) :
    replaceAll (pre ++ ("\x7b" ++ k ++ "\x7d") ++ post) ("\x7b" ++ c ++ "\x7d") v
      = pre ++ ("\x7b" ++ k ++ "\x7d") ++ post := by
  have hB : lbrace ∉ k.data ++ rbrace :: post.data := by
    intro h
    rcases List.mem_append.mp h with h | h
    · exact hk h
    · rcases List.mem_cons.mp h with h | h
      · exact absurd h.symm (by decide)
      · exact hpost h
  have hdata : (pre ++ ("\x7b" ++ k ++ "\x7d") ++ post).data =
      pre.data ++ lbrace :: (k.data ++ rbrace :: post.data) := by
    simp [lbrace, rbrace, patData, List.append_assoc]
  apply String.ext
  rw [replaceAll_data, hdata]
  exact replaceChars_single_lbrace _ _ (c.data ++ [rbrace]) (patData c) _ hB
    hno pre.data _ hpre

lemma renderTemplate_pair2 (k1 v1 k2 v2 : String) (t : String) :
    renderTemplate [(k1, v1), (k2, v2)] t =
      replaceAll (replaceAll t ("\x7b" ++ k1 ++ "\x7d") v1)
        ("\x7b" ++ k2 ++ "\x7d") v2 := rfl

lemma renderTemplate_pair3 (k1 v1 k2 v2 k3 v3 : String) (t : String) :
    renderTemplate [(k1, v1), (k2, v2), (k3, v3)] t =
      replaceAll (replaceAll (replaceAll t ("\x7b" ++ k1 ++ "\x7d") v1)
        ("\x7b" ++ k2 ++ "\x7d") v2) ("\x7b" ++ k3 ++ "\x7d") v3 := rfl

lemma buildTemplateData_nil :
    buildTemplateData [] [] = [("content", ""), ("title", "")] := by decide

lemma buildTemplateData_params_content (p : String) :
    buildTemplateData [("content", p)] [] =
      [("content", ""), ("title", "")] := by
  simp [buildTemplateData, objSpread, objUpsert, lookupStr]

lemma buildTemplateData_single (k p v : String)
    (hc : (k == "content") = false) (ht : (k == "title") = false) :
    buildTemplateData [(k, p)] [(k, v)] =
      [(k, v), ("content", ""), ("title", "")] := by
  simp [buildTemplateData, objSpread, objUpsert, lookupStr, hc, ht]


lemma no_lbrace_append (a b : String) (ha : lbrace ∉ a.data)
    (hb : lbrace ∉ b.data) : lbrace ∉ (a ++ b).data := by
  rw [String.data_append]
  intro h
  rcases List.mem_append.mp h with h | h
  · exact ha h
  · exact hb h

lemma render_bound_key (step : WorkflowStepM) (pre mid post k p v : String)
    (htemp : step.template = pre ++ ("\x7b" ++ k ++ "\x7d") ++ mid ++
      ("\x7b" ++ k ++ "\x7d") ++ post)
    (hpre : lbrace ∉ pre.data) (hmid : lbrace ∉ mid.data)
    (hpost : lbrace ∉ post.data) (hv : lbrace ∉ v.data)
    (hkc : k ≠ "content") (hkt : k ≠ "title") :
    renderStepPrompt step [(k, p)] [(k, v)] = pre ++ v ++ mid ++ v ++ post := by
  have hc : (k == "content") = false := beq_eq_false_iff_ne.mpr hkc
  have ht : (k == "title") = false := beq_eq_false_iff_ne.mpr hkt
  show renderTemplate (buildTemplateData [(k, p)] [(k, v)]) step.template = _
  rw [buildTemplateData_single k p v hc ht, renderTemplate_pair3, htemp]
  have hT : pre ++ ("\x7b" ++ k ++ "\x7d") ++ mid ++
      ("\x7b" ++ k ++ "\x7d") ++ post =
      pre ++ ("\x7b" ++ k ++ "\x7d") ++
        (mid ++ ("\x7b" ++ k ++ "\x7d") ++ post) := by
    simp [String.append_assoc]
  rw [hT, replaceAll_match k v pre _ hpre,
    replaceAll_match k v mid post hmid,
    replaceAll_no_lbrace post k v hpost]
  have hr1 : lbrace ∉ (pre ++ v ++ (mid ++ v ++ post)).data :=
    no_lbrace_append _ _ (no_lbrace_append pre v hpre hv)
      (no_lbrace_append _ _ (no_lbrace_append mid v hmid hv) hpost)
  rw [replaceAll_no_lbrace (pre ++ v ++ (mid ++ v ++ post)) "content" "" hr1,
    replaceAll_no_lbrace (pre ++ v ++ (mid ++ v ++ post)) "title" "" hr1]
  simp [String.append_assoc]

lemma render_unbound_literal (step : WorkflowStepM) (pre post k : String)
    (htemp : step.template = pre ++ ("\x7b" ++ k ++ "\x7d") ++ post)
    (hpre : lbrace ∉ pre.data) (hpost : lbrace ∉ post.data)
    (hk : lbrace ∉ k.data)
    (hnc : ¬ ((lbrace :: (k.data ++ rbrace :: post.data)).take
        ("\x7b" ++ "content" ++ "\x7d").data.length =
        ("\x7b" ++ "content" ++ "\x7d").data))
    (hnt : ¬ ((lbrace :: (k.data ++ rbrace :: post.data)).take
        ("\x7b" ++ "title" ++ "\x7d").data.length =
        ("\x7b" ++ "title" ++ "\x7d").data)) :
    renderStepPrompt step [] [] = step.template := by
  show renderTemplate (buildTemplateData [] []) step.template = _
  rw [buildTemplateData_nil, renderTemplate_pair2, htemp]
  rw [replaceAll_skip_single pre post k "content" "" hpre hpost hk hnc,
    replaceAll_skip_single pre post k "title" "" hpre hpost hk hnt]

lemma render_forced_content (step : WorkflowStepM) (pre post p : String)
    (htemp : step.template = pre ++ ("\x7b" ++ "content" ++ "\x7d") ++ post)
    (hpre : lbrace ∉ pre.data) (hpost : lbrace ∉ post.data) :
    renderStepPrompt step [("content", p)] [] = pre ++ post := by
  show renderTemplate (buildTemplateData [("content", p)] []) step.template = _
  rw [buildTemplateData_params_content, renderTemplate_pair2, htemp]
  rw [replaceAll_match "content" "" pre post hpre,
    replaceAll_no_lbrace post "content" "" hpost]
  have hempty : lbrace ∉ ("" : String).data := fun h => absurd h (List.not_mem_nil _)
  have h1 : lbrace ∉ (pre ++ "" ++ post).data :=
    no_lbrace_append _ _ (no_lbrace_append pre "" hpre hempty) hpost
  rw [replaceAll_no_lbrace (pre ++ "" ++ post) "title" "" h1]
  simp

/-- C7 (counterexample): a placeholder whose key is bound nowhere is NOT
always left as literal text: the keys `content` and `title` are force-bound in
the template data (`previousResults.content || ''`), so with no prior result
and no parameter named `content`, the template `"X: \x7bcontent\x7d"` renders
as `"X: "` — the placeholder is replaced by the empty string. -/
theorem template_unbound_content_cx :
    renderStepPrompt ⟨"s", "n", "title", "X: \x7bcontent\x7d", [], "k"⟩ [] [] =
      "X: " ∧
    renderStepPrompt ⟨"s", "n", "title", "X: \x7bcontent\x7d", [], "k"⟩ [] [] ≠
      "X: \x7bcontent\x7d" := by
  refine ⟨by decide, by decide⟩

/-- C7 (amended): `executeStep` renders a template by successive global
replaces, one per template-data entry: every `\x7bkey\x7d` occurrence of a
bound key is replaced by the bound string, with prior-step results taking
precedence over initial parameters when both bind the key; a placeholder
whose key is bound nowhere is left as literal text; EXCEPT that the keys
`content` and `title` are always bound — to the prior-step result when
present and to the empty string otherwise, ignoring any initial parameter of
those two names — so an unbound `\x7bcontent\x7d` placeholder renders as
empty text.  The parts are stated for templates built from brace-free
literal segments; the `take`-hypotheses of the second part state that the
unbound placeholder does not straddle-match a forced key's pattern, which
the sequential replace semantics would otherwise rewrite.  Scenario D
(`"Title for: \x7bcontent\x7d"` with prior result `"Hello"` rendering as
`"Title for: Hello"`) is the final conjunct. -/
theorem template_substitution :
    (∀ (step : WorkflowStepM) (pre mid post k p v : String),
      step.template = pre ++ ("\x7b" ++ k ++ "\x7d") ++ mid ++
        ("\x7b" ++ k ++ "\x7d") ++ post →
      lbrace ∉ pre.data → lbrace ∉ mid.data → lbrace ∉ post.data →
      lbrace ∉ v.data → k ≠ "content" → k ≠ "title" →
      renderStepPrompt step [(k, p)] [(k, v)] =
        pre ++ v ++ mid ++ v ++ post) ∧
    (∀ (step : WorkflowStepM) (pre post k : String),
      step.template = pre ++ ("\x7b" ++ k ++ "\x7d") ++ post →
      lbrace ∉ pre.data → lbrace ∉ post.data → lbrace ∉ k.data →
      ¬ ((lbrace :: (k.data ++ rbrace :: post.data)).take
          ("\x7b" ++ "content" ++ "\x7d").data.length =
          ("\x7b" ++ "content" ++ "\x7d").data) →
      ¬ ((lbrace :: (k.data ++ rbrace :: post.data)).take
          ("\x7b" ++ "title" ++ "\x7d").data.length =
          ("\x7b" ++ "title" ++ "\x7d").data) →
      renderStepPrompt step [] [] = step.template) ∧
    (∀ (step : WorkflowStepM) (pre post p : String),
      step.template = pre ++ ("\x7b" ++ "content" ++ "\x7d") ++ post →
      lbrace ∉ pre.data → lbrace ∉ post.data →
      renderStepPrompt step [("content", p)] [] = pre ++ post) ∧
    renderStepPrompt
      ⟨"s2", "t", "title", "Title for: \x7bcontent\x7d", [], "title"⟩ []
      [("content", "Hello")] = "Title for: Hello" :=
  ⟨render_bound_key, render_unbound_literal, render_forced_content, by decide⟩

/-- C7 witness: a two-occurrence bound key with both occurrences replaced
from the prior-step result, an unbound `\x7bfoo\x7d` left literal, and a
params-only `content` binding ignored in favour of the empty string. -/
theorem template_substitution_witness :
    renderStepPrompt
      ⟨"s", "n", "title", "Greet " ++ ("\x7b" ++ "k" ++ "\x7d") ++ " and " ++
        ("\x7b" ++ "k" ++ "\x7d") ++ "!", [], "o"⟩ [("k", "P")] [("k", "V")] =
      "Greet " ++ "V" ++ " and " ++ "V" ++ "!" ∧
    renderStepPrompt
      ⟨"s", "n", "title", "A " ++ ("\x7b" ++ "foo" ++ "\x7d") ++ " B", [],
        "o"⟩ [] [] =
      ("A " ++ ("\x7b" ++ "foo" ++ "\x7d") ++ " B" : String) ∧
    renderStepPrompt
      ⟨"s", "n", "title", "X: " ++ ("\x7b" ++ "content" ++ "\x7d") ++ "", [],
        "o"⟩ [("content", "P")] [] = "X: " ++ "" :=
  ⟨template_substitution.1
      ⟨"s", "n", "title", "Greet " ++ ("\x7b" ++ "k" ++ "\x7d") ++ " and " ++
        ("\x7b" ++ "k" ++ "\x7d") ++ "!", [], "o"⟩
      "Greet " " and " "!" "k" "P" "V" rfl (by decide) (by decide) (by decide)
      (by decide) (by decide) (by decide),
   template_substitution.2.1
      ⟨"s", "n", "title", "A " ++ ("\x7b" ++ "foo" ++ "\x7d") ++ " B", [],
        "o"⟩ "A " " B" "foo" rfl (by decide) (by decide) (by decide)
      (by decide) (by decide),
   template_substitution.2.2.1
      ⟨"s", "n", "title", "X: " ++ ("\x7b" ++ "content" ++ "\x7d") ++ "", [],
        "o"⟩ "X: " "" "P" rfl (by decide) (by decide)⟩

end AIAuto
